import Mathlib

/-
Verification development for the titler heading/identifier engine
(src/titler.py). The Python source is shallowly embedded below:

* strings are modeled as Lean String / List Char;
* the external services the core uses (the title-casing transform from
  se.formatting, and Unicode NFKD normalization plus combining-mark removal
  used by make_url_safe step 1) are passed in as an explicit service record
  Svc, since they are external collaborators per the program's design;
* Python functions raising exceptions (roman.fromRoman) are modeled with
  Option / Except;
* BeautifulSoup tags are modeled by a small Node tree, and the ancestor
  chains that find_parents would produce are carried explicitly.

Identifier renamings forced by the host language are one-to-one with the
source: id_prefix/file_prefix/generate_prefix in the source appear here as
id_pfx/file_pfx/generate_pfx.
-/

/-! ## Basic string helpers -/

/-- Python list/str prefix test, used to build substring containment. -/
def isPfxOf : List Char → List Char → Bool
  | [], _ => true
  | _ :: _, [] => false
  | a :: as, b :: bs => a == b && isPfxOf as bs

/-- Substring containment over character lists. -/
def containsSub (n : List Char) : List Char → Bool
  | [] => isPfxOf n []
  | c :: cs => isPfxOf n (c :: cs) || containsSub n cs

/-- Model of the Python expression `needle in hay` on strings. -/
def pyIn (needle hay : String) : Bool :=
  containsSub needle.data hay.data

/-- Model of `tag.get(key) or ""` on a BeautifulSoup attribute list. -/
def getAttr (attrs : List (String × String)) (key : String) : String :=
  match attrs.find? (fun p => p.1 == key) with
  | some p => p.2
  | none => ""

/-- Number of newline characters in a string, for the source's
`str(heading).count("\n")`. -/
def countNl (s : String) : Nat := s.data.count '\n'

/-! ## The roman package

`roman.fromRoman` validates its input against the anchored pattern
`^M{0,4}(CM|CD|D?C{0,3})(XC|XL|L?X{0,3})(IX|IV|V?I{0,3})$` (raising
InvalidRomanNumeralError on a blank input or a failed match) and then sums
values by greedily consuming `romanNumeralMap` entries in order. The regex
alternations below are deterministic: whenever an earlier alternative
matches its two-character prefix, no later alternative can rescue a failing
remainder, because leftover C/X/I/M characters can never be consumed by a
later group; so the backtracking regex equals this greedy parser. Python's
`$` also matches just before one trailing newline, which is reproduced in
`romanPatternOk`. -/

/-- Greedily drop up to `k` copies of `c` from the front. -/
def dropUp (c : Char) : Nat → List Char → List Char
  | 0, l => l
  | _ + 1, [] => []
  | k + 1, a :: r => if a == c then dropUp c k r else a :: r

/-- The hundreds group `(CM|CD|D?C{0,3})`. -/
def romanHundreds (l : List Char) : List Char :=
  match l with
  | 'C' :: 'M' :: r => r
  | 'C' :: 'D' :: r => r
  | 'D' :: r => dropUp 'C' 3 r
  | _ => dropUp 'C' 3 l

/-- The tens group `(XC|XL|L?X{0,3})`. -/
def romanTens (l : List Char) : List Char :=
  match l with
  | 'X' :: 'C' :: r => r
  | 'X' :: 'L' :: r => r
  | 'L' :: r => dropUp 'X' 3 r
  | _ => dropUp 'X' 3 l

/-- The ones group `(IX|IV|V?I{0,3})`. -/
def romanOnes (l : List Char) : List Char :=
  match l with
  | 'I' :: 'X' :: r => r
  | 'I' :: 'V' :: r => r
  | 'V' :: r => dropUp 'I' 3 r
  | _ => dropUp 'I' 3 l

/-- The anchored pattern body, thousands then the three groups. -/
def romanCore (l : List Char) : Bool :=
  (romanOnes (romanTens (romanHundreds (dropUp 'M' 4 l)))).isEmpty

/-- Does the list end with a newline character? -/
def endsNl (l : List Char) : Bool :=
  match l.getLast? with
  | some c => c == '\n'
  | none => false

/-- Full pattern check, allowing the final `$` to sit before one trailing
newline as Python's `re` does. -/
def romanPatternOk (l : List Char) : Bool :=
  romanCore l || (endsNl l && romanCore l.dropLast)

/-- One `while s[index:index+len(numeral)] == numeral` loop of fromRoman,
with fuel (each step consumes at least one character). -/
def consumeRep (num : List Char) (v : Nat) : Nat → List Char → Nat × List Char
  | 0, l => (0, l)
  | fuel + 1, l =>
    if num.isEmpty || !(isPfxOf num l) then (0, l)
    else
      let p := consumeRep num v fuel (l.drop num.length)
      (v + p.1, p.2)

/-- The ordered romanNumeralMap of the roman package. -/
def romanMap : List (List Char × Nat) :=
  [(['M'], 1000), (['C', 'M'], 900), (['D'], 500), (['C', 'D'], 400),
   (['C'], 100), (['X', 'C'], 90), (['L'], 50), (['X', 'L'], 40),
   (['X'], 10), (['I', 'X'], 9), (['V'], 5), (['I', 'V'], 4), (['I'], 1)]

/-- The value-summing loop of fromRoman. -/
def romanValueAux : List (List Char × Nat) → List Char → Nat
  | [], _ => 0
  | (num, v) :: rest, l =>
    let p := consumeRep num v l.length l
    p.1 + romanValueAux rest p.2

/-- Value of a numeral by the map loop (leftover characters are ignored,
exactly as in the source's index-based loop). -/
def romanValue (l : List Char) : Nat := romanValueAux romanMap l

/-- Model of `roman.fromRoman`: none models the raised
InvalidRomanNumeralError. -/
def fromRoman (s : String) : Option Nat :=
  if s.data.isEmpty then none
  else if romanPatternOk s.data then some (romanValue s.data) else none

/-! ## make_url_safe (the slugifier) -/

/-- ASCII lowercase letter, by code point. -/
def isAsciiLower (c : Char) : Bool := 97 ≤ c.toNat && c.toNat ≤ 122

/-- ASCII uppercase letter, by code point. -/
def isAsciiUpper (c : Char) : Bool := 65 ≤ c.toNat && c.toNat ≤ 90

/-- ASCII digit, by code point. -/
def isAsciiDigit (c : Char) : Bool := 48 ≤ c.toNat && c.toNat ≤ 57

/-- Character class of a finished slug: ASCII lowercase, digit or hyphen. -/
def isSlugChar (c : Char) : Bool :=
  isAsciiLower c || isAsciiDigit c || c == '-'

/-- The character class `[^0-9a-z]` with IGNORECASE, i.e. what step 5 of
make_url_safe keeps. -/
def isAlnumCI (c : Char) : Bool :=
  isAsciiLower c || isAsciiUpper c || isAsciiDigit c

/-- Whitespace for Python's str.strip and the regex class \s (the principal
Unicode whitespace code points). -/
def isPyWs (c : Char) : Bool :=
  (9 ≤ c.toNat && c.toNat ≤ 13) || c.toNat == 32 ||
  (28 ≤ c.toNat && c.toNat ≤ 31) ||
  c.toNat == 133 || c.toNat == 160 || c.toNat == 0x1680 ||
  (0x2000 ≤ c.toNat && c.toNat ≤ 0x200A) ||
  c.toNat == 0x2028 || c.toNat == 0x2029 ||
  c.toNat == 0x202F || c.toNat == 0x205F || c.toNat == 0x3000

/-- Python str.lower, modeled per character. It agrees with Python on every
character that can survive step 5 of make_url_safe (the ASCII
alphanumerics); characters outside ASCII are replaced by a space at step 5
either way. -/
def pyLower (c : Char) : Char :=
  if isAsciiUpper c then Char.ofNat (c.toNat + 32) else c

/-- The apostrophe characters removed at step 4: ASCII apostrophe and the
two curly variants. -/
def isApos (c : Char) : Bool :=
  c.toNat == 39 || c.toNat == 0x2018 || c.toNat == 0x2019

/-- The double-quote characters removed at step 4a: ASCII and curly. -/
def isDq (c : Char) : Bool :=
  c.toNat == 34 || c.toNat == 0x201C || c.toNat == 0x201D

/-- Step 5: any character that is not an ASCII letter or digit becomes a
space. -/
def spaceify (c : Char) : Char := if isAlnumCI c then c else ' '

/-- Step 6: every maximal run of whitespace becomes one dash. -/
def collapseWs : List Char → List Char
  | [] => []
  | [c] => if isPyWs c then ['-'] else [c]
  | a :: b :: r =>
    if isPyWs a then
      if isPyWs b then collapseWs (b :: r) else '-' :: collapseWs (b :: r)
    else a :: collapseWs (b :: r)

/-- Step 7: remove trailing dashes. -/
def dropTrailingDashes (l : List Char) : List Char :=
  ((l.reverse).dropWhile (fun c => c == '-')).reverse

/-- Python str.strip(): drop whitespace from both ends. -/
def pyStrip (l : List Char) : List Char :=
  (((l.dropWhile isPyWs).reverse).dropWhile isPyWs).reverse

/-- The external services of the core: the opaque title-casing transform
(se.formatting.titlecase) and the Unicode step of make_url_safe (NFKD
normalization, plus the combining-mark predicate for the \p{M} deletion). -/
structure Svc where
  titlecase : String → String
  nfkd : List Char → List Char
  isMark : Char → Bool

/-- The eight steps of make_url_safe on a character list. -/
def slugSteps (E : Svc) (l : List Char) : List Char :=
  let t1 := (E.nfkd l).filter (fun c => !(E.isMark c))
  let t2 := pyStrip t1
  let t3 := t2.map pyLower
  let t4 := t3.filter (fun c => !(isApos c))
  let t5 := t4.filter (fun c => !(isDq c))
  let t6 := t5.map spaceify
  let t7 := collapseWs t6
  dropTrailingDashes t7

/-- Model of make_url_safe. -/
def make_url_safe (E : Svc) (text : String) : String :=
  String.mk (slugSteps E text.data)

/-- No two adjacent dashes anywhere in the list. -/
def noDoubleDash : List Char → Bool
  | [] => true
  | [_] => true
  | a :: b :: r => !(a == '-' && b == '-') && noDoubleDash (b :: r)

/-- Does the list end with a dash? -/
def endsDash (l : List Char) : Bool :=
  match l.getLast? with
  | some c => c == '-'
  | none => false

/-- The shape every make_url_safe output has: slug characters only, no
double dash, no trailing dash. -/
def isSlugList (l : List Char) : Bool :=
  l.all isSlugChar && noDoubleDash l && !endsDash l

/-! ## TitleInfo and its methods -/

/-- The division of a ToC item (the BookDivision enum). -/
inductive BookDivision where
  | NONE
  | ARTICLE
  | SUBCHAPTER
  | CHAPTER
  | DIVISION
  | PART
  | VOLUME
deriving Repr, DecidableEq

/-- The TitleInfo record. Python initialises the fields as class attributes;
`section_id` and `file_pfx` (source: file_prefix) are set dynamically by
process_first_heading and get_part_prefix, so they live here with empty
defaults. The Python default for `division` is the quirk value
`BookDivision` (the class itself); it is always overwritten before use and
is modeled by NONE. -/
structure TitleInfo where
  title : String := ""
  subtitle : String := ""
  title_no_embeds : String := ""
  subtitle_no_embeds : String := ""
  roman : String := ""
  number : Nat := 0
  depth : Nat := 1
  id_pfx : String := ""
  division : BookDivision := BookDivision.NONE
  section_id : String := ""
  file_pfx : String := ""
deriving Repr, DecidableEq

/-- TitleInfo.generate_prefix (source name generate_prefix): the static
division-to-word mapping. -/
def generate_pfx (ti : TitleInfo) : String :=
  match ti.division with
  | BookDivision.ARTICLE => ""
  | BookDivision.CHAPTER => "Chapter"
  | BookDivision.DIVISION => "Division"
  | BookDivision.PART => "Part"
  | BookDivision.VOLUME => "Volume"
  | _ => ""

/-- TitleInfo.output_title_tag. -/
def output_title_tag (ti : TitleInfo) : String :=
  let pfx := generate_pfx ti
  if ti.subtitle ≠ "" then
    if pfx ≠ "" then
      pfx ++ " " ++ toString ti.number ++ ": " ++ ti.subtitle_no_embeds
    else if ti.title_no_embeds = "" then ti.subtitle_no_embeds
    else ti.title_no_embeds ++ ": " ++ ti.subtitle_no_embeds
  else
    if pfx ≠ "" then
      if 0 < ti.number then pfx ++ " " ++ toString ti.number
      else ti.title_no_embeds
    else ti.title_no_embeds

/-- TitleInfo.generate_id. -/
def generate_id (E : Svc) (ti : TitleInfo) : String :=
  let pfx := generate_pfx ti
  let idStr :=
    if ti.roman ≠ "" then
      pfx ++ "-" ++ ti.id_pfx ++ "-" ++ toString ti.number
    else if ti.title_no_embeds ≠ "" then
      if ti.id_pfx ≠ "" then ti.id_pfx ++ "-" ++ ti.title_no_embeds
      else ti.title_no_embeds
    else if ti.subtitle_no_embeds ≠ "" then ti.subtitle_no_embeds
    else ""
  make_url_safe E idStr

/-! ## The document model

A BeautifulSoup tag is modeled as a Node; the ancestor chain a call to
find_parents would return (nearest ancestor first) is carried explicitly on
the heading and, for get_part_prefix, passed as a section list. str() of a
text node returns the raw text and str() of a tag serializes name,
attributes (in order, as key="value") and contents; entity escaping of
special characters inside text is not modeled, it affects none of the
properties below. -/

inductive Node where
  | text : String → Node
  | elem : String → List (String × String) → List Node → Node

/-- Serialization of an attribute list, BeautifulSoup style. -/
def attrsStr : List (String × String) → String
  | [] => ""
  | (k, v) :: rest => " " ++ k ++ "=\"" ++ v ++ "\"" ++ attrsStr rest

mutual

/-- str() of one node. -/
def nodeStr : Node → String
  | Node.text s => s
  | Node.elem name attrs children =>
    "<" ++ name ++ attrsStr attrs ++ ">" ++ nodesStr children ++ "</" ++ name ++ ">"

/-- Concatenated str() of a content list: extract_contents_as_string. -/
def nodesStr : List Node → String
  | [] => ""
  | n :: rest => nodeStr n ++ nodesStr rest

end

mutual

/-- get_text() of one node. -/
def nodeText : Node → String
  | Node.text s => s
  | Node.elem _ _ children => nodesText children

/-- get_text() of a content list. -/
def nodesText : List Node → String
  | [] => ""
  | n :: rest => nodeText n ++ nodesText rest

end

/-- An ancestor sectioning element: tag name, its epub:type attribute
(empty when absent, as the source reads `get(...) or ""`) and its id
attribute (likewise). -/
structure Element where
  name : String
  epubType : String
  id : String
deriving Repr, DecidableEq

/-- A heading tag: its name (h2..h6), attributes, contents, and the
ancestor chain find_parents would return, nearest first. -/
structure Heading where
  name : String
  attrs : List (String × String)
  contents : List Node
  ancestors : List Element

/-- heading.get("epub:type") or "". -/
def headingEpubType (h : Heading) : String := getAttr h.attrs "epub:type"

/-- str(heading). -/
def headingStr (h : Heading) : String :=
  "<" ++ h.name ++ attrsStr h.attrs ++ ">" ++ nodesStr h.contents ++ "</" ++ h.name ++ ">"

/-- heading.find_all("span", recursive=False): the immediate span children,
as (attribute list, contents) pairs. -/
def spansOf (contents : List Node) : List (List (String × String) × List Node) :=
  contents.filterMap fun n =>
    match n with
    | Node.elem name attrs children =>
      if name = "span" then some (attrs, children) else none
    | _ => none

/-! ## get_book_division -/

/-- get_book_division. The source walks find_parents(["section","article"]),
falling back to find_parents("body"); here the full ancestor chain is given
(nearest first) and the same selection is applied. Substring tests mirror
the Python `in` operator. Total and deterministic by construction. -/
def get_book_division (ancestors : List Element) : BookDivision :=
  let ps := ancestors.filter (fun e => e.name = "section" || e.name = "article")
  let ps := if ps.isEmpty then ancestors.filter (fun e => e.name = "body") else ps
  match ps with
  | [] => BookDivision.NONE
  | e :: _ =>
    let t := e.epubType
    if pyIn "part" t then BookDivision.PART
    else if pyIn "division" t then BookDivision.DIVISION
    else if pyIn "volume" t && !(pyIn "se:short-story" t) then BookDivision.VOLUME
    else if pyIn "subchapter" t then BookDivision.SUBCHAPTER
    else if pyIn "chapter" t then BookDivision.CHAPTER
    else if pyIn "article" e.name then BookDivision.ARTICLE
    else BookDivision.NONE

/-! ## The compound-pattern regex

regex.search(r'(Book|Part|Division|Volume) <span epub:type="z3998:roman">(.*?)</span>',
temp_title, regex.IGNORECASE) is modeled by a leftmost scan; at each
position the word alternatives are tried in pattern order, then the literal
span opening, then the lazy group, which stops at the earliest closing
literal and cannot cross a newline (regex `.`). Group 1 keeps the original
casing of the matched word. -/

/-- Case-insensitive literal match at the front, returning the rest. -/
def ciPfx : List Char → List Char → Option (List Char)
  | [], l => some l
  | _ :: _, [] => none
  | p :: ps, c :: cs => if pyLower p == pyLower c then ciPfx ps cs else none

/-- The lazy group `(.*?)` followed by the literal `stop`: shortest prefix
(never containing a newline) such that `stop` follows; returns the group
text and the rest after `stop`. -/
def lazyUntil (stop : List Char) : List Char → Option (List Char × List Char)
  | [] =>
    match ciPfx stop [] with
    | some r => some ([], r)
    | none => none
  | c :: cs =>
    match ciPfx stop (c :: cs) with
    | some r => some ([], r)
    | none =>
      if c == '\n' then none
      else
        match lazyUntil stop cs with
        | some (g, r) => some (c :: g, r)
        | none => none

/-- The four word alternatives, in pattern order. -/
def compoundWords : List (List Char) :=
  ["Book".data, "Part".data, "Division".data, "Volume".data]

/-- Try the word alternatives at this position; group 1 is the original
text. -/
def tryWords : List (List Char) → List Char → Option (List Char × List Char)
  | [], _ => none
  | w :: ws, l =>
    match ciPfx w l with
    | some r => some (l.take w.length, r)
    | none => tryWords ws l

/-- The literal between group 1 and group 2. -/
def spanOpenPat : List Char := (" <span epub:type=\"z3998:roman\">").data

/-- The literal closing the lazy group. -/
def spanClosePat : List Char := ("</span>").data

/-- Attempt the full pattern at one position: (group 1, group 2). -/
def matchCompoundAt (l : List Char) : Option (List Char × List Char) :=
  match tryWords compoundWords l with
  | none => none
  | some (g1, r) =>
    match ciPfx spanOpenPat r with
    | none => none
    | some r2 =>
      match lazyUntil spanClosePat r2 with
      | none => none
      | some (g2, _) => some (g1, g2)

/-- Leftmost search for the compound pattern. -/
def matchCompound : List Char → Option (List Char × List Char)
  | [] => none
  | c :: cs =>
    match matchCompoundAt (c :: cs) with
    | some g => some g
    | none => matchCompound cs

/-! ## process_first_heading -/

/-- The failure modes of the parser. A raised InvalidRomanNumeralError is
malformedRomanNumeral; the source's fall-through `return None` when no
branch applies is unrecognizedHeadingStructure. -/
inductive TitlerError where
  | malformedRomanNumeral
  | unrecognizedHeadingStructure
deriving Repr, DecidableEq

/-- The span loop of process_first_heading. In-place span mutation
(update_span) only rewrites the tree and never feeds back into the
TitleInfo fields, so it is not modeled. -/
def processSpans (E : Svc) :
    List (List (String × String) × List Node) → TitleInfo → Except TitlerError TitleInfo
  | [], ti => Except.ok ti
  | (attrs, children) :: rest, ti =>
    let et := getAttr attrs "epub:type"
    if pyIn "z3998:roman" et then
      match fromRoman (nodesText children) with
      | none => Except.error TitlerError.malformedRomanNumeral
      | some n =>
        processSpans E rest { ti with roman := nodesText children, number := n }
    else if pyIn "subtitle" et then
      processSpans E rest
        { ti with subtitle_no_embeds := E.titlecase (nodesText children),
                  subtitle := E.titlecase (nodesStr children) }
    else
      processSpans E rest
        { ti with title := E.titlecase (nodesStr children),
                  title_no_embeds := E.titlecase (nodesText children) }

/-- process_first_heading. The source checks the compound pattern first,
then the single-line branch (`str(heading).count("\n") + 1 == 1` and a
non-empty epub:type), then the immediate-span loop; if no branch applies it
falls off the end returning None, modeled as
unrecognizedHeadingStructure. -/
def process_first_heading (E : Svc) (h : Heading) : Except TitlerError TitleInfo :=
  let ti0 : TitleInfo := { division := get_book_division h.ancestors }
  let temp := nodesStr h.contents
  match matchCompound temp.data with
  | some (w, r) =>
    match fromRoman (String.mk r) with
    | none => Except.error TitlerError.malformedRomanNumeral
    | some n =>
      let tne := String.mk w ++ " " ++ toString n
      Except.ok { ti0 with title_no_embeds := tne, title := E.titlecase temp,
                           section_id := make_url_safe E tne }
  | none =>
    if countNl (headingStr h) = 0 ∧ headingEpubType h ≠ "" then
      if pyIn "z3998:roman" (headingEpubType h) then
        match fromRoman (nodesText h.contents) with
        | none => Except.error TitlerError.malformedRomanNumeral
        | some n =>
          let ti1 := { ti0 with roman := nodesText h.contents, number := n }
          Except.ok { ti1 with section_id := generate_id E ti1 }
      else
        Except.ok { ti0 with title := E.titlecase (nodesStr h.contents),
                             title_no_embeds := E.titlecase (nodesText h.contents) }
    else
      match spansOf h.contents with
      | [] => Except.error TitlerError.unrecognizedHeadingStructure
      | ss => processSpans E ss ti0

/-! ## get_part_prefix -/

/-- Word characters for the regex \w (Python also counts Unicode letters;
the ASCII model covers every identifier the program builds). -/
def isWordChar (c : Char) : Bool :=
  isAsciiLower c || isAsciiUpper c || isAsciiDigit c || c == '_'

/-- Attempt of r"\w+[-](\d{1,}.*?)" at one position. The lazy tail matches
empty, so group 1 is the maximal digit run after the hyphen ending the
maximal word run. -/
def tryNumAt (l : List Char) : Option (List Char) :=
  if (l.takeWhile isWordChar).isEmpty then none
  else
    match l.dropWhile isWordChar with
    | '-' :: rest =>
      let ds := rest.takeWhile isAsciiDigit
      if ds.isEmpty then none else some ds
    | _ => none

/-- Leftmost search of r"\w+[-](\d{1,}.*?)", returning group 1. -/
def findNumTok : List Char → Option (List Char)
  | [] => none
  | c :: cs =>
    match tryNumAt (c :: cs) with
    | some g => some g
    | none => findNumTok cs

/-- get_part_prefix (source name; fields renamed id_pfx/file_pfx).
`sections` is the ordered ancestor-section list, nearest first. -/
def get_part_pfx (ti : TitleInfo) (sections : List Element) : TitleInfo :=
  let ti := { ti with depth := sections.length }
  match sections with
  | s0 :: s1 :: _ =>
    let et := s1.epubType
    if et = "" then ti
    else if !(pyIn "part" et) && !(pyIn "division" et) && !(pyIn "volume" et) then ti
    else
      let sid := s1.id
      if sid = "" then ti
      else if pyIn "short-story" s0.epubType then { ti with id_pfx := sid }
      else
        let ti2 := { ti with file_pfx := sid }
        match findNumTok sid.data with
        | some g => { ti2 with id_pfx := String.mk g }
        | none => ti2
  | _ => ti

/-! ## Character-class facts for the slugifier -/

/-- ASCII lowercase letters and digits: the non-dash slug characters. -/
def isLowerDigit (c : Char) : Bool := isAsciiLower c || isAsciiDigit c

theorem toNat_dash : ('-' : Char).toNat = 45 := rfl

theorem toNat_space : (' ' : Char).toNat = 32 := rfl

theorem toNat_ofNat_valid {n : Nat} (h1 : 97 ≤ n) (h2 : n ≤ 122) :
    (Char.ofNat n).toNat = n := by
  have hv : n.isValidChar := Or.inl (by omega)
  rw [Char.ofNat, dif_pos hv]
  rfl

theorem slugChar_toNat {c : Char} (h : isSlugChar c = true) :
    (97 ≤ c.toNat ∧ c.toNat ≤ 122) ∨ (48 ≤ c.toNat ∧ c.toNat ≤ 57) ∨ c.toNat = 45 := by
  simp only [isSlugChar, isAsciiLower, isAsciiDigit, Bool.or_eq_true, beq_iff_eq,
    Bool.and_eq_true, decide_eq_true_eq] at h
  rcases h with (h | h) | h
  · exact Or.inl h
  · exact Or.inr (Or.inl h)
  · subst h; exact Or.inr (Or.inr rfl)

theorem slugChar_cases {c : Char} (h : isSlugChar c = true) :
    isLowerDigit c = true ∨ c = '-' := by
  simp only [isSlugChar, Bool.or_eq_true, beq_iff_eq] at h
  simp only [isLowerDigit, Bool.or_eq_true]
  tauto

theorem lowerDigit_toNat {c : Char} (h : isLowerDigit c = true) :
    (97 ≤ c.toNat ∧ c.toNat ≤ 122) ∨ (48 ≤ c.toNat ∧ c.toNat ≤ 57) := by
  simpa only [isLowerDigit, isAsciiLower, isAsciiDigit, Bool.or_eq_true,
    Bool.and_eq_true, decide_eq_true_eq] using h

theorem slug_not_ws {c : Char} (h : isSlugChar c = true) : isPyWs c = false := by
  cases hw : isPyWs c
  · rfl
  · have h1 := slugChar_toNat h
    simp only [isPyWs, Bool.or_eq_true, beq_iff_eq, Bool.and_eq_true,
      decide_eq_true_eq] at hw
    omega

theorem lowerDigit_not_ws {c : Char} (h : isLowerDigit c = true) : isPyWs c = false := by
  cases hw : isPyWs c
  · rfl
  · have h1 := lowerDigit_toNat h
    simp only [isPyWs, Bool.or_eq_true, beq_iff_eq, Bool.and_eq_true,
      decide_eq_true_eq] at hw
    omega

theorem lowerDigit_ne_dash {c : Char} (h : isLowerDigit c = true) : c ≠ '-' := by
  intro hc
  subst hc
  have h1 := lowerDigit_toNat h
  rw [toNat_dash] at h1
  omega

theorem lowerDigit_slug {c : Char} (h : isLowerDigit c = true) : isSlugChar c = true := by
  simp only [isLowerDigit, Bool.or_eq_true] at h
  simp only [isSlugChar, Bool.or_eq_true]
  tauto

theorem lowerDigit_alnum {c : Char} (h : isLowerDigit c = true) : isAlnumCI c = true := by
  simp only [isLowerDigit, Bool.or_eq_true] at h
  simp only [isAlnumCI, Bool.or_eq_true]
  tauto

theorem slug_not_upper {c : Char} (h : isSlugChar c = true) : isAsciiUpper c = false := by
  cases hu : isAsciiUpper c
  · rfl
  · have h1 := slugChar_toNat h
    simp only [isAsciiUpper, Bool.and_eq_true, decide_eq_true_eq] at hu
    omega

theorem slug_pyLower {c : Char} (h : isSlugChar c = true) : pyLower c = c := by
  simp [pyLower, slug_not_upper h]

theorem slug_not_apos {c : Char} (h : isSlugChar c = true) : isApos c = false := by
  cases ha : isApos c
  · rfl
  · have h1 := slugChar_toNat h
    simp only [isApos, Bool.or_eq_true, beq_iff_eq] at ha
    omega

theorem slug_not_dq {c : Char} (h : isSlugChar c = true) : isDq c = false := by
  cases ha : isDq c
  · rfl
  · have h1 := slugChar_toNat h
    simp only [isDq, Bool.or_eq_true, beq_iff_eq] at ha
    omega

theorem pyLower_not_upper (c : Char) : isAsciiUpper (pyLower c) = false := by
  by_cases hu : isAsciiUpper c = true
  · simp only [pyLower, hu, if_true]
    simp only [isAsciiUpper, Bool.and_eq_true, decide_eq_true_eq] at hu
    have htn := toNat_ofNat_valid (n := c.toNat + 32) (by omega) (by omega)
    have hle : ¬(c.toNat + 32 ≤ 90) := by omega
    simp [isAsciiUpper, htn, hle]
  · simp only [Bool.not_eq_true] at hu
    simp [pyLower, hu]

theorem spaceify_lowerDigit {c : Char} (h : isLowerDigit c = true) : spaceify c = c := by
  simp [spaceify, lowerDigit_alnum h]

theorem spaceify_dash : spaceify '-' = ' ' := by decide

/-! ## Facts about collapseWs -/

theorem collapseWs_nil : collapseWs [] = [] := rfl

theorem collapseWs_cons_not_ws {b : Char} (r : List Char) (hb : isPyWs b = false) :
    collapseWs (b :: r) = b :: collapseWs r := by
  cases r with
  | nil => simp [collapseWs, hb]
  | cons c r' => simp [collapseWs, hb]

theorem noDoubleDash_tail {a : Char} {t : List Char}
    (h : noDoubleDash (a :: t) = true) : noDoubleDash t = true := by
  cases t with
  | nil => rfl
  | cons b t' =>
    simp only [noDoubleDash, Bool.and_eq_true] at h
    exact h.2

theorem noDoubleDash_cons {a : Char} {t : List Char}
    (ha : a ≠ '-' ∨ t.head? ≠ some '-') (ht : noDoubleDash t = true) :
    noDoubleDash (a :: t) = true := by
  cases t with
  | nil => rfl
  | cons b t' =>
    simp only [noDoubleDash, Bool.and_eq_true, Bool.not_eq_true', Bool.and_eq_false_iff,
      beq_eq_false_iff_ne]
    refine ⟨?_, ht⟩
    rcases ha with ha | ha
    · exact Or.inl ha
    · simp only [List.head?_cons, ne_eq, Option.some.injEq] at ha
      exact Or.inr ha

theorem isPyWs_space : isPyWs ' ' = true := by decide

theorem collapseWs_charset {l : List Char}
    (hl : ∀ c ∈ l, isLowerDigit c = true ∨ c = ' ') :
    ∀ c ∈ collapseWs l, isLowerDigit c = true ∨ c = '-' := by
  induction l using collapseWs.induct with
  | case1 => intro c hc; simp [collapseWs] at hc
  | case2 c hws =>
    intro d hd
    simp [collapseWs, hws] at hd
    exact Or.inr hd
  | case3 c hws =>
    intro d hd
    simp [collapseWs, hws] at hd
    subst hd
    rcases hl d (by simp) with h | h
    · exact Or.inl h
    · subst h; simp [isPyWs_space] at hws
  | case4 a b r hwa hwb ih =>
    intro d hd
    simp only [collapseWs, hwa, hwb, if_true] at hd
    exact ih (fun c hc => hl c (List.mem_cons_of_mem a hc)) d hd
  | case5 a b r hwa hwb ih =>
    intro d hd
    simp [collapseWs, hwa, hwb] at hd
    rcases hd with hd | hd
    · exact Or.inr hd
    · exact ih (fun c hc => hl c (List.mem_cons_of_mem a hc)) d hd
  | case6 a b r hwa ih =>
    intro d hd
    simp [collapseWs, hwa] at hd
    rcases hd with hd | hd
    · subst hd
      rcases hl d (by simp) with h | h
      · exact Or.inl h
      · subst h; simp [isPyWs_space] at hwa
    · exact ih (fun c hc => hl c (List.mem_cons_of_mem a hc)) d hd

theorem collapseWs_noDoubleDash {l : List Char}
    (hl : ∀ c ∈ l, isLowerDigit c = true ∨ c = ' ') :
    noDoubleDash (collapseWs l) = true := by
  induction l using collapseWs.induct with
  | case1 => rfl
  | case2 c hws => simp [collapseWs, hws, noDoubleDash]
  | case3 c hws => simp [collapseWs, hws, noDoubleDash]
  | case4 a b r hwa hwb ih =>
    simp only [collapseWs, hwa, hwb, if_true]
    exact ih (fun c hc => hl c (List.mem_cons_of_mem a hc))
  | case5 a b r hwa hwb ih =>
    have hb : isLowerDigit b = true := by
      rcases hl b (by simp) with h | h
      · exact h
      · subst h; simp [isPyWs_space] at hwb
    have hwbf : isPyWs b = false := by simpa using hwb
    have h1 : collapseWs (a :: b :: r) = '-' :: collapseWs (b :: r) := by
      simp [collapseWs, hwa, hwbf]
    rw [h1]
    apply noDoubleDash_cons
    · right
      rw [collapseWs_cons_not_ws r hwbf]
      simp only [List.head?_cons, ne_eq, Option.some.injEq]
      exact lowerDigit_ne_dash hb
    · exact ih (fun c hc => hl c (List.mem_cons_of_mem a hc))
  | case6 a b r hwa ih =>
    have ha : isLowerDigit a = true := by
      rcases hl a (by simp) with h | h
      · exact h
      · subst h; simp [isPyWs_space] at hwa
    have h1 : collapseWs (a :: b :: r) = a :: collapseWs (b :: r) := by
      simp [collapseWs, hwa]
    rw [h1]
    apply noDoubleDash_cons
    · exact Or.inl (lowerDigit_ne_dash ha)
    · exact ih (fun c hc => hl c (List.mem_cons_of_mem a hc))

theorem collapseWs_map_spaceify {l : List Char}
    (hall : ∀ c ∈ l, isSlugChar c = true) (hndd : noDoubleDash l = true) :
    collapseWs (l.map spaceify) = l := by
  induction l with
  | nil => rfl
  | cons a t ih =>
    rcases slugChar_cases (hall a (by simp)) with ha | ha
    · rw [List.map_cons, spaceify_lowerDigit ha,
        collapseWs_cons_not_ws _ (lowerDigit_not_ws ha),
        ih (fun c hc => hall c (List.mem_cons_of_mem a hc)) (noDoubleDash_tail hndd)]
    · subst ha
      rw [List.map_cons, spaceify_dash]
      cases t with
      | nil => decide
      | cons b t' =>
        have hb : isLowerDigit b = true := by
          rcases slugChar_cases (hall b (by simp)) with h | h
          · exact h
          · exfalso
            subst h
            simp [noDoubleDash] at hndd
        have hwbf : isPyWs b = false := lowerDigit_not_ws hb
        rw [List.map_cons, spaceify_lowerDigit hb]
        have h1 : collapseWs (' ' :: b :: List.map spaceify t') =
            '-' :: collapseWs (b :: List.map spaceify t') := by
          simp [collapseWs, isPyWs_space, hwbf]
        rw [h1]
        have h2 : (b :: List.map spaceify t') = List.map spaceify (b :: t') := by
          rw [List.map_cons, spaceify_lowerDigit hb]
        rw [h2, ih (fun c hc => hall c (List.mem_cons_of_mem '-' hc)) (noDoubleDash_tail hndd)]

/-! ## Facts about the trim steps -/

theorem head?_dropWhile {p : Char → Bool} :
    ∀ {m : List Char} {a : Char}, (m.dropWhile p).head? = some a → p a = false := by
  intro m
  induction m with
  | nil => intro a h; simp at h
  | cons c cs ih =>
    intro a h
    rw [List.dropWhile_cons] at h
    by_cases hc : p c = true
    · rw [if_pos hc] at h
      exact ih h
    · rw [if_neg hc] at h
      simp only [List.head?_cons, Option.some.injEq] at h
      subst h
      simpa using hc

theorem dropWhile_eq_self_of {p : Char → Bool} {l : List Char}
    (h : ∀ c ∈ l, p c = false) : l.dropWhile p = l := by
  cases l with
  | nil => rfl
  | cons c cs => rw [List.dropWhile_cons, if_neg (by simp [h c (by simp)])]

theorem dropTrailingDashes_isPrefix (l : List Char) : dropTrailingDashes l <+: l := by
  have h1 : (l.reverse.dropWhile (fun c => c == '-')) <:+ l.reverse :=
    List.dropWhile_suffix _
  have h2 := List.reverse_prefix.mpr h1
  rwa [List.reverse_reverse] at h2

theorem noDoubleDash_take : ∀ (n : Nat) (l : List Char),
    noDoubleDash l = true → noDoubleDash (l.take n) = true := by
  intro n l
  induction l generalizing n with
  | nil => intro h; simp [h]
  | cons a t ih =>
    intro h
    cases n with
    | zero => rfl
    | succ m =>
      rw [List.take_succ_cons]
      cases t with
      | nil => simp [List.take_nil]; rfl
      | cons b t' =>
        simp only [noDoubleDash, Bool.and_eq_true] at h
        cases m with
        | zero => rfl
        | succ k =>
          rw [List.take_succ_cons]
          have ihres := ih (k + 1) h.2
          rw [List.take_succ_cons] at ihres
          simp only [noDoubleDash, Bool.and_eq_true]
          exact ⟨h.1, ihres⟩

theorem noDoubleDash_of_isPrefix {l' l : List Char} (h : l' <+: l)
    (hl : noDoubleDash l = true) : noDoubleDash l' = true := by
  rw [List.prefix_iff_eq_take.mp h]
  exact noDoubleDash_take _ _ hl

theorem endsDash_dropTrailingDashes (l : List Char) :
    endsDash (dropTrailingDashes l) = false := by
  rw [endsDash, dropTrailingDashes, List.getLast?_reverse]
  cases hh : (l.reverse.dropWhile (fun c => c == '-')).head? with
  | none => rfl
  | some a => simpa using head?_dropWhile hh

theorem dropTrailingDashes_eq_self {l : List Char} (h : endsDash l = false) :
    dropTrailingDashes l = l := by
  rw [dropTrailingDashes]
  cases hr : l.reverse with
  | nil =>
    have : l = [] := by simpa using congrArg List.reverse hr
    simp [this]
  | cons c cs =>
    have hc : c ≠ '-' := by
      have hlast : l.getLast? = some c := by
        rw [← List.head?_reverse, hr, List.head?_cons]
      rw [endsDash, hlast] at h
      simpa using h
    rw [List.dropWhile_cons, if_neg (by simp [hc])]
    rw [← hr, List.reverse_reverse]

theorem pyStrip_eq_self {l : List Char} (h : ∀ c ∈ l, isPyWs c = false) :
    pyStrip l = l := by
  rw [pyStrip, dropWhile_eq_self_of h,
    dropWhile_eq_self_of (fun c hc => h c (List.mem_reverse.mp hc)),
    List.reverse_reverse]

/-! ## The slug invariant and the fixed-point property -/

theorem isSlugList_iff {l : List Char} :
    isSlugList l = true ↔
      (∀ c ∈ l, isSlugChar c = true) ∧ noDoubleDash l = true ∧ endsDash l = false := by
  simp [isSlugList, List.all_eq_true, and_assoc]

theorem slugSteps_isSlugList (E : Svc) (l : List Char) :
    isSlugList (slugSteps E l) = true := by
  rw [isSlugList_iff]
  rw [slugSteps]
  set t1 := (E.nfkd l).filter (fun c => !(E.isMark c)) with ht1
  set t2 := pyStrip t1 with ht2
  set t3 := t2.map pyLower with ht3
  set t4 := t3.filter (fun c => !(isApos c)) with ht4
  set t5 := t4.filter (fun c => !(isDq c)) with ht5
  have h3 : ∀ c ∈ t3, isAsciiUpper c = false := by
    intro c hc
    rw [ht3] at hc
    rcases List.mem_map.mp hc with ⟨a, _, rfl⟩
    exact pyLower_not_upper a
  have h5 : ∀ c ∈ t5, isAsciiUpper c = false := by
    intro c hc
    exact h3 c (List.mem_of_mem_filter (List.mem_of_mem_filter hc))
  have h6 : ∀ c ∈ t5.map spaceify, isLowerDigit c = true ∨ c = ' ' := by
    intro c hc
    rcases List.mem_map.mp hc with ⟨a, ha, rfl⟩
    by_cases hal : isAlnumCI a = true
    · left
      have hup := h5 a ha
      simp only [spaceify, hal, if_true]
      simp only [isAlnumCI, Bool.or_eq_true] at hal
      simp only [isLowerDigit, Bool.or_eq_true]
      rcases hal with (h | h) | h
      · exact Or.inl h
      · rw [h] at hup; cases hup
      · exact Or.inr h
    · right
      simp only [Bool.not_eq_true] at hal
      simp [spaceify, hal]
  have hpre := dropTrailingDashes_isPrefix (collapseWs (t5.map spaceify))
  refine ⟨?_, ?_, ?_⟩
  · intro c hc
    have hc2 := hpre.sublist.mem hc
    rcases collapseWs_charset h6 c hc2 with h | h
    · exact lowerDigit_slug h
    · subst h; simp [isSlugChar]
  · exact noDoubleDash_of_isPrefix hpre (collapseWs_noDoubleDash h6)
  · exact endsDash_dropTrailingDashes _

theorem slugSteps_fixed (E : Svc)
    (hnf : ∀ l, (∀ c ∈ l, isSlugChar c = true) → E.nfkd l = l)
    (hmk : ∀ c, isSlugChar c = true → E.isMark c = false)
    {l : List Char} (h : isSlugList l = true) : slugSteps E l = l := by
  rcases isSlugList_iff.mp h with ⟨hall, hndd, hlast⟩
  have e1 : E.nfkd l = l := hnf l hall
  have e2 : l.filter (fun c => !(E.isMark c)) = l :=
    List.filter_eq_self.mpr (fun c hc => by simp [hmk c (hall c hc)])
  have e3 : pyStrip l = l := pyStrip_eq_self (fun c hc => slug_not_ws (hall c hc))
  have e4 : l.map pyLower = l := by
    rw [List.map_congr_left (fun c hc => slug_pyLower (hall c hc)), List.map_id']
  have e5 : l.filter (fun c => !(isApos c)) = l :=
    List.filter_eq_self.mpr (fun c hc => by simp [slug_not_apos (hall c hc)])
  have e6 : l.filter (fun c => !(isDq c)) = l :=
    List.filter_eq_self.mpr (fun c hc => by simp [slug_not_dq (hall c hc)])
  have e7 : collapseWs (l.map spaceify) = l := collapseWs_map_spaceify hall hndd
  have e8 : dropTrailingDashes l = l := dropTrailingDashes_eq_self hlast
  rw [slugSteps, e1, e2, e3, e4, e5, e6, e7, e8]

/-! ## Concrete service instance used by witnesses and counterexamples

On the ASCII inputs below, Unicode NFKD normalization is the identity and
no character is a combining mark, so the identity services instantiate the
external collaborators faithfully; the title-casing transform is likewise
instantiated by the identity, which is one admissible opaque transform. -/

def E0 : Svc := { titlecase := fun s => s, nfkd := fun l => l, isMark := fun _ => false }

theorem make_url_safe_data (E : Svc) (s : String) :
    (make_url_safe E s).data = slugSteps E s.data := rfl

theorem endsDash_false_getLast {l : List Char} (h : endsDash l = false) :
    l.getLast? ≠ some '-' := by
  intro hc
  unfold endsDash at h
  rw [hc] at h
  simp at h

/-- C10: for every input string (and any behavior of the external Unicode
normalization), the output of make_url_safe contains only ASCII lowercase
letters, ASCII digits and hyphens, and never ends with a hyphen. -/
theorem make_url_safe_charset (E : Svc) (s : String) :
    (∀ c ∈ (make_url_safe E s).data, isSlugChar c = true) ∧
    (make_url_safe E s).data.getLast? ≠ some '-' := by
  have h := slugSteps_isSlugList E s.data
  rcases isSlugList_iff.mp h with ⟨hall, _, hlast⟩
  rw [make_url_safe_data]
  exact ⟨hall, endsDash_false_getLast hlast⟩

/-- Witness for C10 at a concrete input. -/
theorem make_url_safe_charset_witness :
    (∀ c ∈ (make_url_safe E0 "A  Mixed-up!  Title--").data, isSlugChar c = true) ∧
    (make_url_safe E0 "A  Mixed-up!  Title--").data.getLast? ≠ some '-' :=
  make_url_safe_charset E0 "A  Mixed-up!  Title--"

/-- C1: make_url_safe is idempotent, for every string, whenever the
external normalization service is the identity on already-slugified text
(as Unicode NFKD is on ASCII, which carries no combining marks). -/
theorem make_url_safe_idempotent (E : Svc)
    (hnf : ∀ l, (∀ c ∈ l, isSlugChar c = true) → E.nfkd l = l)
    (hmk : ∀ c, isSlugChar c = true → E.isMark c = false)
    (s : String) :
    make_url_safe E (make_url_safe E s) = make_url_safe E s := by
  rw [make_url_safe, make_url_safe]
  have hd : (String.mk (slugSteps E s.data)).data = slugSteps E s.data := rfl
  rw [hd, slugSteps_fixed E hnf hmk (slugSteps_isSlugList E s.data)]

/-- Witness for C1 at a concrete input. -/
theorem make_url_safe_idempotent_witness :
    make_url_safe E0 (make_url_safe E0 "Mothers  Day!") = make_url_safe E0 "Mothers  Day!" :=
  make_url_safe_idempotent E0 (fun _ _ => rfl) (fun _ _ => rfl) "Mothers  Day!"

/-! ## Claim C7: the roman branch of generate_id -/

/-- A TitleInfo whose division prefix word is empty while a numeral was
parsed: division NONE maps to the empty prefix. -/
def tiRomanNone : TitleInfo :=
  { roman := "IV", number := 4, division := BookDivision.NONE }

/-- C7 counterexample: with a parsed numeral, an empty idPrefix and an
empty division-prefix word, the candidate "--4" slugifies to "-4", whose
leading segment (before the first hyphen) is empty — the claim that the
final identifier contains no empty segment fails at this input. -/
theorem generate_id_empty_segment_counterexample :
    tiRomanNone.roman ≠ "" ∧ tiRomanNone.id_pfx = "" ∧
    generate_id E0 tiRomanNone = "-4" ∧
    ((generate_id E0 tiRomanNone).data.splitOn '-').contains [] = true := by
  refine ⟨by decide, rfl, by decide, by decide⟩

/-- C7 amended: whenever romanText was parsed the identifier candidate is
"{prefix}-{idPrefix}-{number}" (decimal, subtitle ignored, built the same
way whether or not idPrefix is empty), and slugification collapses any
empty segment cleanly in the interior: the final identifier never contains
two consecutive hyphens and never ends with a hyphen (it may still begin
with one when the division prefix is itself empty). -/
theorem generate_id_roman_spec (E : Svc) (ti : TitleInfo) (h : ti.roman ≠ "") :
    generate_id E ti =
      make_url_safe E (generate_pfx ti ++ "-" ++ ti.id_pfx ++ "-" ++ toString ti.number) ∧
    noDoubleDash (generate_id E ti).data = true ∧
    endsDash (generate_id E ti).data = false := by
  have h1 : generate_id E ti =
      make_url_safe E (generate_pfx ti ++ "-" ++ ti.id_pfx ++ "-" ++ toString ti.number) := by
    rw [generate_id, if_pos h]
  refine ⟨h1, ?_, ?_⟩
  · rw [h1, make_url_safe_data]
    exact (isSlugList_iff.mp (slugSteps_isSlugList E _)).2.1
  · rw [h1, make_url_safe_data]
    exact (isSlugList_iff.mp (slugSteps_isSlugList E _)).2.2

/-- A chapter TitleInfo with a parsed numeral and an empty idPrefix. -/
def tiChapterFour : TitleInfo :=
  { roman := "IV", number := 4, division := BookDivision.CHAPTER }

/-- Witness for the amended C7: the "Chapter--4" candidate of the example
slugifies without any interior empty segment (and indeed evaluates to
"chapter-4"). -/
theorem generate_id_roman_spec_witness :
    (generate_id E0 tiChapterFour =
      make_url_safe E0
        (generate_pfx tiChapterFour ++ "-" ++ tiChapterFour.id_pfx ++ "-" ++
          toString tiChapterFour.number) ∧
    noDoubleDash (generate_id E0 tiChapterFour).data = true ∧
    endsDash (generate_id E0 tiChapterFour).data = false) ∧
    generate_id E0 tiChapterFour = "chapter-4" :=
  ⟨generate_id_roman_spec E0 tiChapterFour (by decide), by decide⟩

/-! ## Claim C5: classifier priority -/

/-- C5: get_book_division applies its rules in fixed priority order; when
the nearest sectioning ancestor's marker attribute contains both "part"
and "volume" the result is PART regardless of the order of the tokens in
the attribute. (The classifier is a total function by construction: it
returns a BookDivision for every ancestor chain, with no failure path.) -/
theorem get_book_division_part_priority (e : Element) (rest : List Element)
    (hn : e.name = "section")
    (hp : pyIn "part" e.epubType = true)
    (_hv : pyIn "volume" e.epubType = true) :
    get_book_division (e :: rest) = BookDivision.PART := by
  have hkeep : (e.name = "section" || e.name = "article") = true := by simp [hn]
  rw [get_book_division]
  rw [List.filter_cons_of_pos (by simpa using hkeep)]
  simp only [List.isEmpty_cons, if_false, Bool.false_eq_true]
  rw [if_pos hp]

/-- Witness for C5: "volume" written before "part" still classifies as
PART (and the volume marker is genuinely present). -/
theorem get_book_division_part_priority_witness :
    get_book_division [{ name := "section", epubType := "volume part", id := "x" }] =
      BookDivision.PART :=
  get_book_division_part_priority
    { name := "section", epubType := "volume part", id := "x" } [] rfl
    (by decide) (by decide)

/-! ## Claim C9: the title formatter never shows a bare number -/

/-- C9: whenever the division maps to an empty prefix word the rendered
title is one of the stored title/subtitle strings and is never built from
the number; the "{prefix} {number}" form appears only with a non-empty
prefix and a positive number, and the "{prefix} {number}: {subtitle}" form
only with a non-empty prefix. -/
theorem output_title_tag_spec (ti : TitleInfo) :
    (generate_pfx ti = "" →
      output_title_tag ti = ti.subtitle_no_embeds ∨
      output_title_tag ti = ti.title_no_embeds ++ ": " ++ ti.subtitle_no_embeds ∨
      output_title_tag ti = ti.title_no_embeds) ∧
    (ti.subtitle = "" → generate_pfx ti ≠ "" → 0 < ti.number →
      output_title_tag ti = generate_pfx ti ++ " " ++ toString ti.number) ∧
    (ti.subtitle = "" → generate_pfx ti ≠ "" → ti.number = 0 →
      output_title_tag ti = ti.title_no_embeds) ∧
    (ti.subtitle ≠ "" → generate_pfx ti ≠ "" →
      output_title_tag ti =
        generate_pfx ti ++ " " ++ toString ti.number ++ ": " ++ ti.subtitle_no_embeds) := by
  refine ⟨?_, ?_, ?_, ?_⟩
  · intro hp
    by_cases hs : ti.subtitle = ""
    · right; right
      simp [output_title_tag, hs, hp]
    · by_cases ht : ti.title_no_embeds = ""
      · left
        simp [output_title_tag, hs, hp, ht]
      · right; left
        simp [output_title_tag, hs, hp, ht]
  · intro hs hp hn
    simp [output_title_tag, hs, hp, hn]
  · intro hs hp hn
    simp [output_title_tag, hs, hp, hn]
  · intro hs hp
    simp [output_title_tag, hs, hp]

/-- The "Part 4: A Subtitle" example record. -/
def tiPartSub : TitleInfo :=
  { subtitle := "A Subtitle", subtitle_no_embeds := "A Subtitle",
    number := 4, division := BookDivision.PART }

/-- Witness for C9. -/
theorem output_title_tag_spec_witness :
    output_title_tag tiPartSub = "Part 4: A Subtitle" := by
  rw [(output_title_tag_spec tiPartSub).2.2.2 (by decide) (by decide)]
  decide

/-! ## Claim C6: the prefix resolver -/

theorem takeWhile_all {p : Char → Bool} {d : List Char}
    (h : ∀ c ∈ d, p c = true) : d.takeWhile p = d := by
  induction d with
  | nil => rfl
  | cons a t ih =>
    rw [List.takeWhile_cons, if_pos (h a (by simp))]
    rw [ih (fun c hc => h c (List.mem_cons_of_mem a hc))]

theorem takeWhile_all_append {p : Char → Bool} {w : List Char} {x : Char} (t : List Char)
    (hw : ∀ c ∈ w, p c = true) (hx : p x = false) :
    (w ++ x :: t).takeWhile p = w := by
  induction w with
  | nil => simp [List.takeWhile_cons, hx]
  | cons a w' ih =>
    rw [List.cons_append, List.takeWhile_cons, if_pos (hw a (by simp))]
    rw [ih (fun c hc => hw c (List.mem_cons_of_mem a hc))]

theorem dropWhile_all_append {p : Char → Bool} {w : List Char} {x : Char} (t : List Char)
    (hw : ∀ c ∈ w, p c = true) (hx : p x = false) :
    (w ++ x :: t).dropWhile p = x :: t := by
  induction w with
  | nil => simp [List.dropWhile_cons, hx]
  | cons a w' ih =>
    rw [List.cons_append, List.dropWhile_cons, if_pos (hw a (by simp))]
    exact ih (fun c hc => hw c (List.mem_cons_of_mem a hc))

theorem isWordChar_dash : isWordChar '-' = false := by decide

/-- C6: with a part/division/volume marker and a non-empty identifier on
the ancestor at index 1, a short-story-marked nearest ancestor inherits
the full identifier verbatim, and otherwise idPrefix becomes exactly the
first run of digits following the hyphen that ends the leading word-run of
the identifier. -/
theorem get_part_pfx_spec (ti : TitleInfo) (s0 s1 : Element) (rest : List Element)
    (hm : pyIn "part" s1.epubType = true ∨ pyIn "division" s1.epubType = true ∨
          pyIn "volume" s1.epubType = true)
    (hid : s1.id ≠ "") :
    (pyIn "short-story" s0.epubType = true →
      (get_part_pfx ti (s0 :: s1 :: rest)).id_pfx = s1.id) ∧
    (pyIn "short-story" s0.epubType = false →
      ∀ w d r, s1.id.data = w ++ '-' :: (d ++ r) →
        w ≠ [] → (∀ c ∈ w, isWordChar c = true) →
        d ≠ [] → (∀ c ∈ d, isAsciiDigit c = true) →
        (∀ c, r.head? = some c → isAsciiDigit c = false) →
        (get_part_pfx ti (s0 :: s1 :: rest)).id_pfx = String.mk d) := by
  have het : ¬(s1.epubType = "") := by
    intro h
    rcases hm with hm | hm | hm <;> rw [h] at hm <;> exact absurd hm (by decide)
  have hmk : (!(pyIn "part" s1.epubType) && !(pyIn "division" s1.epubType) &&
      !(pyIn "volume" s1.epubType)) = false := by
    rcases hm with hm | hm | hm <;> simp [hm]
  constructor
  · intro hss
    simp only [get_part_pfx]
    rw [if_neg het, if_neg (by simp [hmk]), if_neg hid, if_pos hss]
  · intro hss
    intro w d r hsplit hw hwall hd hdall hr
    have hfind : findNumTok s1.id.data = some d := by
      rw [hsplit]
      cases w with
      | nil => exact absurd rfl hw
      | cons wh wt =>
        have htk : ((wh :: wt) ++ '-' :: (d ++ r)).takeWhile isWordChar = wh :: wt :=
          takeWhile_all_append _ hwall isWordChar_dash
        have hdr : ((wh :: wt) ++ '-' :: (d ++ r)).dropWhile isWordChar = '-' :: (d ++ r) :=
          dropWhile_all_append _ hwall isWordChar_dash
        have hds : (d ++ r).takeWhile isAsciiDigit = d := by
          cases r with
          | nil => rw [List.append_nil]; exact takeWhile_all hdall
          | cons rh rt =>
            exact takeWhile_all_append _ hdall (hr rh (by simp))
        have htry : tryNumAt ((wh :: wt) ++ '-' :: (d ++ r)) = some d := by
          rw [tryNumAt, htk]
          simp only [List.isEmpty_cons, Bool.false_eq_true, if_false]
          rw [hdr]
          simp [hds, List.isEmpty_iff, hd]
        rw [List.cons_append, findNumTok, ← List.cons_append, htry]
    simp only [get_part_pfx]
    rw [if_neg het, if_neg (by simp [hmk]), if_neg hid, if_neg (by simp [hss]), hfind]

/-- Witness for C6 at the spec's example chain: chapter "ch-1" nested in a
volume "part-2", nearest ancestor not short-story-marked, giving
idPrefix "2". -/
theorem get_part_pfx_spec_witness :
    (get_part_pfx ({} : TitleInfo)
      [{ name := "section", epubType := "chapter", id := "ch-1" },
       { name := "section", epubType := "volume", id := "part-2" }]).id_pfx = "2" := by
  have h := (get_part_pfx_spec ({} : TitleInfo)
    { name := "section", epubType := "chapter", id := "ch-1" }
    { name := "section", epubType := "volume", id := "part-2" } []
    (Or.inr (Or.inr (by decide))) (by decide)).2 (by decide)
    "part".data ['2'] [] rfl (by decide) (by decide) (by decide) (by decide)
    (fun c hc => by simp at hc)
  exact h

/-! ## Claim C4: the compound pattern short-circuits everything else -/

/-- C4: whenever the serialized heading content matches the compound
pattern, the parser returns immediately with titleNoEmbeds equal to the
matched word followed by the decimal value of the numeral, title equal to
the titlecased original content (the raw content, numeral included, is
passed to the external title-caser untouched), an empty subtitle, and no
other field populated — whatever else the heading contains. -/
theorem compound_heading_spec (E : Svc) (h : Heading) (w r : List Char) (n : Nat)
    (hc : matchCompound (nodesStr h.contents).data = some (w, r))
    (hr : fromRoman (String.mk r) = some n) :
    process_first_heading E h = Except.ok
      { division := get_book_division h.ancestors,
        title_no_embeds := String.mk w ++ " " ++ toString n,
        title := E.titlecase (nodesStr h.contents),
        section_id := make_url_safe E (String.mk w ++ " " ++ toString n) } := by
  simp only [process_first_heading, hc, hr]

/-- The compound example heading Book IV. -/
def hBookIV : Heading :=
  { name := "h2", attrs := [("epub:type", "title")],
    contents := [Node.text "Book ",
                 Node.elem "span" [("epub:type", "z3998:roman")] [Node.text "IV"]],
    ancestors := [] }

/-- Witness for C4 on the Book IV heading. -/
theorem compound_heading_spec_witness :
    process_first_heading E0 hBookIV = Except.ok
      { division := get_book_division hBookIV.ancestors,
        title_no_embeds := String.mk "Book".data ++ " " ++ toString 4,
        title := E0.titlecase (nodesStr hBookIV.contents),
        section_id := make_url_safe E0 (String.mk "Book".data ++ " " ++ toString 4) } :=
  compound_heading_spec E0 hBookIV "Book".data "IV".data 4 (by rfl) (by rfl)

/-! ## Claim C3: the single-line branch -/

/-- C3 counterexample: a heading with no child elements, only text, that
carries the numbering marker, whose text "XIV\n" holds a numeral the
conversion service itself accepts (Python's re lets the anchor sit before
one trailing newline, so roman.fromRoman("XIV\n") is 14); the claim says
the parser must extract roman/number from it, but the source counts
serialized lines, takes the span path, finds no spans, and fails with the
unrecognized-structure fall-through instead. -/
def hTextNl : Heading :=
  { name := "h2", attrs := [("epub:type", "title z3998:roman")],
    contents := [Node.text "XIV\n"], ancestors := [] }

theorem single_heading_counterexample :
    pyIn "z3998:roman" (headingEpubType hTextNl) = true ∧
    hTextNl.contents = [Node.text "XIV\n"] ∧
    fromRoman "XIV\n" = some 14 ∧
    process_first_heading E0 hTextNl =
      Except.error TitlerError.unrecognizedHeadingStructure :=
  ⟨by decide, rfl, by decide, by rfl⟩

/-- C3 amended: for every heading whose serialized form is a single line,
which carries a (non-empty) marker attribute and does not match the
compound pattern: with the numbering marker the raw text is extracted
verbatim into roman (never passed through the title-caser) and its
conversion into number, while both title fields stay empty; without the
numbering marker the whole content is titlecased into title (markup kept)
and titleNoEmbeds (text only). -/
theorem single_line_heading_amended (E : Svc) (h : Heading)
    (hc : matchCompound (nodesStr h.contents).data = none)
    (hl : countNl (headingStr h) = 0)
    (he : headingEpubType h ≠ "") :
    (∀ n, pyIn "z3998:roman" (headingEpubType h) = true →
      fromRoman (nodesText h.contents) = some n →
      ∃ ti, process_first_heading E h = Except.ok ti ∧
        ti.roman = nodesText h.contents ∧ ti.number = n ∧
        ti.title = "" ∧ ti.title_no_embeds = "") ∧
    (pyIn "z3998:roman" (headingEpubType h) = false →
      process_first_heading E h = Except.ok
        { division := get_book_division h.ancestors,
          title := E.titlecase (nodesStr h.contents),
          title_no_embeds := E.titlecase (nodesText h.contents) }) := by
  constructor
  · intro n hrm hn
    refine ⟨{ division := get_book_division h.ancestors, roman := nodesText h.contents,
              number := n,
              section_id := generate_id E
                { division := get_book_division h.ancestors,
                  roman := nodesText h.contents, number := n } },
            ?_, rfl, rfl, rfl, rfl⟩
    simp only [process_first_heading, hc, hrm, hn, if_pos (And.intro hl he), if_true]
  · intro hrm
    simp only [process_first_heading, hc, hrm, if_pos (And.intro hl he), Bool.false_eq_true,
      if_false]

/-- The single-line roman heading XIV. -/
def hXIVok : Heading :=
  { name := "h2", attrs := [("epub:type", "title z3998:roman")],
    contents := [Node.text "XIV"], ancestors := [] }

/-- Witness for the amended C3 on the XIV heading. -/
theorem single_line_heading_amended_witness :
    ∃ ti, process_first_heading E0 hXIVok = Except.ok ti ∧
      ti.roman = nodesText hXIVok.contents ∧ ti.number = 14 ∧
      ti.title = "" ∧ ti.title_no_embeds = "" :=
  (single_line_heading_amended E0 hXIVok (by rfl) (by rfl) (by decide)).1 14
    (by decide) (by rfl)

/-! ## Claim C2: the unrecognized-structure fall-through -/

/-- C2 counterexample: a heading that is not single-element (it has an em
child element), matches no compound pattern and has no child spans — per
the claim it must fail as UnrecognizedHeadingStructure — yet the source's
single-LINE test accepts it and returns a populated success, because the
serialized heading has no newline and carries the numbering marker. -/
def hEmIV : Heading :=
  { name := "h2", attrs := [("epub:type", "title z3998:roman")],
    contents := [Node.elem "em" [] [Node.text "IV"]], ancestors := [] }

theorem unrecognized_claim_counterexample :
    spansOf hEmIV.contents = [] ∧
    matchCompound (nodesStr hEmIV.contents).data = none ∧
    process_first_heading E0 hEmIV = Except.ok
      { division := BookDivision.NONE, roman := "IV", number := 4,
        section_id := "-4" } :=
  ⟨rfl, by rfl, by rfl⟩

/-- C2 amended: every heading that matches no compound pattern, fails the
source's single-line test (serialized newline count nonzero, or no marker
attribute) and has no immediate span children is rejected with the
UnrecognizedHeadingStructure failure — never returned as a partially
populated success. -/
theorem unrecognized_heading_amended (E : Svc) (h : Heading)
    (hc : matchCompound (nodesStr h.contents).data = none)
    (hl : ¬(countNl (headingStr h) = 0 ∧ headingEpubType h ≠ ""))
    (hs : spansOf h.contents = []) :
    process_first_heading E h = Except.error TitlerError.unrecognizedHeadingStructure := by
  simp only [process_first_heading, hc, if_neg hl, hs]

/-- A two-line heading with no spans and no markers. -/
def hPlainNl : Heading :=
  { name := "h2", attrs := [("epub:type", "title")],
    contents := [Node.text "Hello\nWorld"], ancestors := [] }

/-- Witness for the amended C2. -/
theorem unrecognized_heading_amended_witness :
    process_first_heading E0 hPlainNl = Except.error TitlerError.unrecognizedHeadingStructure :=
  unrecognized_heading_amended E0 hPlainNl (by rfl) (by decide) rfl

/-! ## Claim C8: malformed numerals are a distinct failure -/

theorem processSpans_malformed_iff (E : Svc)
    (l : List (List (String × String) × List Node)) (ti : TitleInfo) :
    processSpans E l ti = Except.error TitlerError.malformedRomanNumeral ↔
      ∃ p ∈ l, pyIn "z3998:roman" (getAttr p.1 "epub:type") = true ∧
        fromRoman (nodesText p.2) = none := by
  induction l generalizing ti with
  | nil => simp [processSpans]
  | cons s rest ih =>
    obtain ⟨attrs, children⟩ := s
    by_cases hrm : pyIn "z3998:roman" (getAttr attrs "epub:type") = true
    · cases hfr : fromRoman (nodesText children) with
      | none =>
        simp only [processSpans, hrm, if_true]
        simp only [hfr]
        constructor
        · intro _
          exact ⟨(attrs, children), by simp, hrm, hfr⟩
        · intro _
          trivial
      | some n =>
        simp only [processSpans, hrm, if_true, hfr]
        rw [ih]
        constructor
        · rintro ⟨p, hp, hcond⟩
          exact ⟨p, List.mem_cons_of_mem _ hp, hcond⟩
        · rintro ⟨p, hp, h1, h2⟩
          rcases List.mem_cons.mp hp with hp | hp
          · subst hp
            rw [h2] at hfr
            cases hfr
          · exact ⟨p, hp, h1, h2⟩
    · have hrmf : pyIn "z3998:roman" (getAttr attrs "epub:type") = false := by
        simpa using hrm
      by_cases hsub : pyIn "subtitle" (getAttr attrs "epub:type") = true
      · simp only [processSpans, hrmf, Bool.false_eq_true, if_false, hsub, if_true]
        rw [ih]
        constructor
        · rintro ⟨p, hp, hcond⟩
          exact ⟨p, List.mem_cons_of_mem _ hp, hcond⟩
        · rintro ⟨p, hp, h1, h2⟩
          rcases List.mem_cons.mp hp with hp | hp
          · subst hp
            rw [h1] at hrmf
            cases hrmf
          · exact ⟨p, hp, h1, h2⟩
      · have hsubf : pyIn "subtitle" (getAttr attrs "epub:type") = false := by
          simpa using hsub
        simp only [processSpans, hrmf, Bool.false_eq_true, if_false, hsubf]
        rw [ih]
        constructor
        · rintro ⟨p, hp, hcond⟩
          exact ⟨p, List.mem_cons_of_mem _ hp, hcond⟩
        · rintro ⟨p, hp, h1, h2⟩
          rcases List.mem_cons.mp hp with hp | hp
          · subst hp
            rw [h1] at hrmf
            cases hrmf
          · exact ⟨p, hp, h1, h2⟩

/-- C8: with a numbering marker present and text the conversion rejects,
the parser surfaces the distinct malformedRomanNumeral failure (the raised
InvalidRomanNumeralError), never a success carrying number 0 and never the
unrecognized-structure failure. On the single-line path this is
unconditional; on the span path the malformed failure occurs exactly when
some immediate span carries the numbering marker with unconvertible
text. -/
theorem malformed_roman_spec (E : Svc) (h : Heading)
    (hc : matchCompound (nodesStr h.contents).data = none) :
    (countNl (headingStr h) = 0 → headingEpubType h ≠ "" →
      pyIn "z3998:roman" (headingEpubType h) = true →
      fromRoman (nodesText h.contents) = none →
      process_first_heading E h = Except.error TitlerError.malformedRomanNumeral) ∧
    (¬(countNl (headingStr h) = 0 ∧ headingEpubType h ≠ "") →
      ∀ s ss, spansOf h.contents = s :: ss →
        (process_first_heading E h = Except.error TitlerError.malformedRomanNumeral ↔
          ∃ p ∈ spansOf h.contents,
            pyIn "z3998:roman" (getAttr p.1 "epub:type") = true ∧
            fromRoman (nodesText p.2) = none)) := by
  constructor
  · intro h1 h2 h3 h4
    simp only [process_first_heading, hc, if_pos (And.intro h1 h2), h3, if_true, h4]
  · intro hl s ss hsp
    simp only [process_first_heading, hc, if_neg hl, hsp]
    rw [processSpans_malformed_iff]

/-- A single-line heading with the numbering marker and unconvertible
text. -/
def hBadRoman : Heading :=
  { name := "h2", attrs := [("epub:type", "title z3998:roman")],
    contents := [Node.text "ABC"], ancestors := [] }

/-- Witness for C8: the single-line path surfaces malformedRomanNumeral on
"ABC". -/
theorem malformed_roman_spec_witness :
    process_first_heading E0 hBadRoman = Except.error TitlerError.malformedRomanNumeral :=
  (malformed_roman_spec E0 hBadRoman (by rfl)).1 (by rfl) (by decide) (by decide) (by rfl)
